import Mathlib

/-!
Verification of the cx-compiler core (src/Compiler) against its
natural-language specification.  The definitions below are shallow
embeddings of the C++ source: enums become inductives, structs become
structures, machine integers become `Nat`/`Int` with explicit `% 2^w`
where the source truncates, and fallible code returns `Except`.
-/

namespace CxComp

/-- All available types of symbols, in the declaration order of
`enum struct BaseSymbolType` (SymbolTableEntry.h). -/
inductive BaseSymbolType
  | Unknown
  | None
  | Function
  | FunctionPrototype
  | EntryPoint
  | SharedFunction
  | Label
  | Void
  | Bool
  | Uint8
  | Uint16
  | Uint32
  | String
  deriving DecidableEq, Repr

/-- Underlying C++ enum value of a `BaseSymbolType` (declaration order,
starting at 0); the source compares bases with `<=` / `>=` on these. -/
def BaseSymbolType.val : BaseSymbolType → Nat
  | .Unknown => 0
  | .None => 1
  | .Function => 2
  | .FunctionPrototype => 3
  | .EntryPoint => 4
  | .SharedFunction => 5
  | .Label => 6
  | .Void => 7
  | .Bool => 8
  | .Uint8 => 9
  | .Uint16 => 10
  | .Uint32 => 11
  | .String => 12

/-- `struct SymbolType` (SymbolTableEntry.h): a base type together with a
pointer depth (`uint8_t pointer`). -/
structure SymbolType where
  base : BaseSymbolType
  pointer : Nat
  deriving DecidableEq, Repr

/-- `enum struct ExpressionType` (SymbolTableEntry.h). -/
inductive ExpressionType
  | None
  | Constant
  | Variable
  deriving DecidableEq, Repr

/-- `enum struct CompilerExceptionSource` (CompilerException.h). -/
inductive CompilerExceptionSource
  | Unknown
  | Syntax
  | Declaration
  | Statement
  | Compilation
  deriving DecidableEq, Repr

/-- `class CompilerException` (CompilerException.h), reduced to the
source/message pair every throw site constructs. -/
structure CompilerException where
  source : CompilerExceptionSource
  message : String
  deriving DecidableEq, Repr

/-- `Compiler::CanImplicitCast` (Compiler.cpp, lines 782-822), embedded
branch for branch. -/
def canImplicitCast (toT fromT : SymbolType) (type : ExpressionType) : Bool :=
  if fromT = toT then
    true
  else if fromT.pointer > 0 ∧ toT.pointer = 1 ∧ toT.base = .Void then
    -- Implicit cast from any pointer type to "void*"
    true
  else if fromT.pointer = 1 ∧ fromT.base = .Void ∧ toT.pointer > 0 ∧ type = .Constant then
    -- Implicit cast "const void*" to any pointer (for null)
    true
  else if type = .Constant ∧
      (fromT.base = .Uint8 ∨ fromT.base = .Uint16 ∨ fromT.base = .Uint32) ∧
      (toT.base = .Uint8 ∨ toT.base = .Uint16 ∨ toT.base = .Uint32) then
    -- Constant implicit cast
    true
  else if toT.pointer = 0 ∧ fromT.pointer = 0 ∧
      BaseSymbolType.Bool.val ≤ toT.base.val ∧ BaseSymbolType.Bool.val ≤ fromT.base.val ∧
      toT.base.val ≤ BaseSymbolType.Uint32.val ∧ fromT.base.val ≤ BaseSymbolType.Uint32.val then
    -- Only expansion (assign smaller to bigger type) is detected as implicit cast
    decide (fromT.base.val ≤ toT.base.val)
  else
    false

/-- The implicit-cast relation exactly as the specification words it
(spec §4.1 "Type rules", rules 1-6); rule 4 demands `pointer_depth = 0`
on both sides. -/
def specImplicitCast (toT fromT : SymbolType) (type : ExpressionType) : Bool :=
  decide (fromT = toT) ||
  decide (fromT.pointer > 0 ∧ toT.pointer = 1 ∧ toT.base = .Void) ||
  decide (fromT.pointer = 1 ∧ fromT.base = .Void ∧ toT.pointer > 0 ∧ type = .Constant) ||
  decide (type = .Constant ∧ fromT.pointer = 0 ∧ toT.pointer = 0 ∧
      (fromT.base = .Uint8 ∨ fromT.base = .Uint16 ∨ fromT.base = .Uint32) ∧
      (toT.base = .Uint8 ∨ toT.base = .Uint16 ∨ toT.base = .Uint32)) ||
  decide (toT.pointer = 0 ∧ fromT.pointer = 0 ∧
      BaseSymbolType.Bool.val ≤ toT.base.val ∧ BaseSymbolType.Bool.val ≤ fromT.base.val ∧
      toT.base.val ≤ BaseSymbolType.Uint32.val ∧ fromT.base.val ≤ BaseSymbolType.Uint32.val ∧
      fromT.base.val ≤ toT.base.val)

/-- The specification's rules amended at rule 4 only: the constant
integer-base rule applies at every pointer depth, because the source's
constant branch never inspects `pointer`. -/
def specImplicitCastAmended (toT fromT : SymbolType) (type : ExpressionType) : Bool :=
  decide (fromT = toT) ||
  decide (fromT.pointer > 0 ∧ toT.pointer = 1 ∧ toT.base = .Void) ||
  decide (fromT.pointer = 1 ∧ fromT.base = .Void ∧ toT.pointer > 0 ∧ type = .Constant) ||
  decide (type = .Constant ∧
      (fromT.base = .Uint8 ∨ fromT.base = .Uint16 ∨ fromT.base = .Uint32) ∧
      (toT.base = .Uint8 ∨ toT.base = .Uint16 ∨ toT.base = .Uint32)) ||
  decide (toT.pointer = 0 ∧ fromT.pointer = 0 ∧
      BaseSymbolType.Bool.val ≤ toT.base.val ∧ BaseSymbolType.Bool.val ≤ fromT.base.val ∧
      toT.base.val ≤ BaseSymbolType.Uint32.val ∧ fromT.base.val ≤ BaseSymbolType.Uint32.val ∧
      fromT.base.val ≤ toT.base.val)

/-- C1 counterexample: for `toT = uint8*`, `fromT = uint16*` and a
constant expression, the source's `CanImplicitCast` answers `true`
although the specification's rules (rule 4 requires pointer depth 0 on
both sides, and no other rule applies) answer `false`. -/
theorem canImplicitCast_constant_pointer_cex :
    canImplicitCast ⟨.Uint8, 1⟩ ⟨.Uint16, 1⟩ .Constant = true ∧
    specImplicitCast ⟨.Uint8, 1⟩ ⟨.Uint16, 1⟩ .Constant = false := by
  decide

/-- C1 (amended): `CanImplicitCast` agrees everywhere with the
specification's rules once rule 4 is amended to apply at every pointer
depth (the source's constant branch never inspects `pointer`); in
particular the relation is reflexive and widening-only for non-constant
integers. -/
theorem canImplicitCast_eq_specAmended :
    ∀ toT fromT type,
      canImplicitCast toT fromT type = specImplicitCastAmended toT fromT type := by
  intro toT fromT type
  unfold canImplicitCast specImplicitCastAmended
  split_ifs with h1 h2 h3 h4 h5 <;> simp_all

/-! ## Declaration queue (`Compiler::ToDeclarationList`, Compiler.cpp 325-350) -/

/-- One node of the declaration queue: a `SymbolTableEntry` as the
front end builds it (`new SymbolTableEntry()` value-initializes the
fields left untouched, so `returnType = (Unknown, 0)`, `ip = 0`,
`parameter = 0`, `isTemp = false` unless a later site sets them). -/
structure DeclEntry where
  name : String
  type : SymbolType
  size : Int
  expType : ExpressionType
  returnType : SymbolType := ⟨.Unknown, 0⟩
  ip : Int := 0
  parameter : Int := 0
  isTemp : Bool := false
  deriving DecidableEq, Repr

/-- The duplicate-name error `ToDeclarationList` throws. -/
def declDupError (name : String) : CompilerException :=
  ⟨.Declaration, "Variable \"" ++ name ++ "\" is already declared in this scope"⟩

/-- The `while (entry->next)` walk of `ToDeclarationList`: compare the
new name against each entry that still has a successor (so the current
tail is never compared), then hang the new symbol off the tail. -/
def declQueueAppend (sym : DeclEntry) : List DeclEntry → Except CompilerException (List DeclEntry)
  | [] => .ok [sym]
  | [tail] => .ok [tail, sym]
  | e :: r₁ :: r₂ =>
    if e.name = sym.name then
      .error (declDupError sym.name)
    else
      match declQueueAppend sym (r₁ :: r₂) with
      | .ok l => .ok (e :: l)
      | .error ex => .error ex

/-- `Compiler::ToDeclarationList` (Compiler.cpp, lines 325-350): build
the new symbol and append it to the declaration queue, failing with a
`Declaration` error when the duplicate walk finds the name. -/
def toDeclarationList (queue : List DeclEntry) (type : SymbolType) (size : Int)
    (name : String) (expType : ExpressionType) : Except CompilerException (List DeclEntry) :=
  declQueueAppend { name := name, type := type, size := size, expType := expType } queue

/-- Shorthand for a queue node as `ToDeclarationList` creates it. -/
def mkDecl (name : String) (type : SymbolType) (size : Int) (expType : ExpressionType) :
    DeclEntry :=
  { name := name, type := type, size := size, expType := expType }

/-- C3 (code bug): with the queue holding exactly the local `x`,
declaring a second local named `x` does not raise the `Declaration`
error the spec promises - the duplicate walk only compares entries that
have a successor, skipping the tail, so a duplicate `x` is appended. -/
theorem toDeclarationList_tail_duplicate_accepted :
    toDeclarationList [mkDecl "x" ⟨.Uint8, 0⟩ 0 .Variable] ⟨.Uint16, 0⟩ 0 "x" .Variable
      = .ok [mkDecl "x" ⟨.Uint8, 0⟩ 0 .Variable, mkDecl "x" ⟨.Uint16, 0⟩ 0 .Variable] := by
  rfl

/-! ## Synthetic temporaries (`Compiler::GetUnusedVariable`, Compiler.cpp 861-898) -/

/-- The five per-kind counters `var_count_*` of `class Compiler`
(Compiler.h, lines 388-392), all zero-initialised. -/
structure VarCounters where
  varCountBool : Nat
  varCountUint8 : Nat
  varCountUint16 : Nat
  varCountUint32 : Nat
  varCountString : Nat
  deriving DecidableEq, Repr

/-- Zero-initialised counters of a fresh `Compiler`. -/
def initialVarCounters : VarCounters := ⟨0, 0, 0, 0, 0⟩

/-- The `switch (type.base)` of `Compiler::GetUnusedVariable`: bump the
kind's counter and print the buffer.  The `String` case of the source
increments `var_count_string` but prints `var_count_uint32`
(Compiler.cpp, line 886), and that is embedded as written. -/
def getUnusedVariableName (type : SymbolType) (c : VarCounters) :
    Except CompilerException (String × VarCounters) :=
  match type.base with
  | .Bool =>
    let c := { c with varCountBool := c.varCountBool + 1 }
    .ok ("#b_" ++ toString c.varCountBool, c)
  | .Uint8 =>
    let c := { c with varCountUint8 := c.varCountUint8 + 1 }
    .ok ("#ui8_" ++ toString c.varCountUint8, c)
  | .Uint16 =>
    let c := { c with varCountUint16 := c.varCountUint16 + 1 }
    .ok ("#ui16_" ++ toString c.varCountUint16, c)
  | .Uint32 =>
    let c := { c with varCountUint32 := c.varCountUint32 + 1 }
    .ok ("#ui32_" ++ toString c.varCountUint32, c)
  | .String =>
    let c := { c with varCountString := c.varCountString + 1 }
    .ok ("#s_" ++ toString c.varCountUint32, c)
  | _ => .error ⟨.Compilation, "Unexpected compiler error"⟩

/-- `Compiler::GetUnusedVariable`: generate the synthetic name, then run
it through `ToDeclarationList` (array size 0, `Variable` expression). -/
def getUnusedVariable (type : SymbolType) (c : VarCounters) (queue : List DeclEntry) :
    Except CompilerException (String × VarCounters × List DeclEntry) :=
  match getUnusedVariableName type c with
  | .error e => .error e
  | .ok (name, c') =>
    match toDeclarationList queue type 0 name .Variable with
    | .error e => .error e
    | .ok q => .ok (name, c', q)

/-- C4 (code bug): two successive `GetUnusedVariable` calls for the
`String` kind on a fresh compiler both produce the name `#s_0` - the
source prints `var_count_uint32` instead of the freshly incremented
`var_count_string` - so the N names are neither pairwise distinct nor
suffixed with the per-kind counter. -/
theorem getUnusedVariable_string_names_collide :
    getUnusedVariable ⟨.String, 0⟩ initialVarCounters []
      = .ok ("#s_0", ⟨0, 0, 0, 0, 1⟩, [mkDecl "#s_0" ⟨.String, 0⟩ 0 .Variable]) ∧
    getUnusedVariable ⟨.String, 0⟩ ⟨0, 0, 0, 0, 1⟩ [mkDecl "#s_0" ⟨.String, 0⟩ 0 .Variable]
      = .ok ("#s_0", ⟨0, 0, 0, 0, 2⟩,
          [mkDecl "#s_0" ⟨.String, 0⟩ 0 .Variable, mkDecl "#s_0" ⟨.String, 0⟩ 0 .Variable]) := by
  exact ⟨rfl, rfl⟩

/-! ## MZ header and output buffer (DosExeEmitter.cpp / GenericEmitter.cpp) -/

/-- `struct MzHeader` (DosExeEmitter.h, lines 78-93); every `uint16_t`
field is a `Nat` kept `< 2^16` by explicit truncation at assignment. -/
structure MzHeader where
  signature : String
  lastBlockSize : Nat
  blockCount : Nat
  relocCount : Nat
  headerParagraphs : Nat
  minExtraParagraphs : Nat
  maxExtraParagraphs : Nat
  ss : Nat
  sp : Nat
  checksum : Nat
  ip : Nat
  cs : Nat
  relocTableOffset : Nat
  overlayCount : Nat
  deriving DecidableEq, Repr

/-- `sizeof(MzHeader)`: packed, 2 signature bytes plus 13 `uint16_t`. -/
def mzHeaderSize : Nat := 28

/-- The all-zero header `EmitMzHeader` starts from (`memset(header, 0, ...)`). -/
def zeroMzHeader : MzHeader := ⟨"", 0, 0, 0, 0, 0, 0, 0, 0, 0, 0, 0, 0, 0⟩

/-- The byte-buffer state of `GenericEmitter` (GenericEmitter.h): the
append offset `buffer_offset` and the instruction pointer `ip_dst`,
together with the MZ header poked back at finalization. -/
structure EmitBuf where
  header : MzHeader
  bufferOffset : Nat
  ipDst : Nat
  deriving DecidableEq, Repr

/-- A fresh emitter: empty buffer, `ip_dst = 0`. -/
def initEmitBuf : EmitBuf := ⟨zeroMzHeader, 0, 0⟩

/-- `GenericEmitter::AllocateBuffer` (GenericEmitter.cpp, lines 5-27):
appends `size` bytes, advancing only `buffer_offset`. -/
def allocateBuffer (size : Nat) (s : EmitBuf) : EmitBuf :=
  { s with bufferOffset := s.bufferOffset + size }

/-- `GenericEmitter::AllocateBufferForInstruction` (GenericEmitter.cpp,
lines 29-33): `ip_dst += size` then `AllocateBuffer(size)`. -/
def allocateBufferForInstruction (size : Nat) (s : EmitBuf) : EmitBuf :=
  allocateBuffer size { s with ipDst := s.ipDst + size }

/-- `DosExeEmitter::EmitMzHeader` (DosExeEmitter.cpp, lines 36-54):
allocate the header via `AllocateBuffer` (not the instruction variant),
write the signature and `header_paragraphs`, and 0-fill up to the next
paragraph boundary. -/
def emitMzHeader (s : EmitBuf) : EmitBuf :=
  let headerSize := mzHeaderSize
  let s := allocateBuffer headerSize s
  let hp := (headerSize + 16 - 1) / 16
  let header := { zeroMzHeader with signature := "MZ", headerParagraphs := hp % 65536 }
  let remaining := hp * 16 - headerSize
  let s := if remaining > 0 then allocateBuffer remaining s else s
  { s with header := header }

/-- `DosExeEmitter::FixMzHeader` (DosExeEmitter.cpp, lines 769-816):
block count and last-block size from `ip_dst`, stack segment from
`ip_dst + static_size`, `SP` clamped then biased for the flat model,
extra paragraphs from data plus stack, start `IP` from the initial
`Goto`'s mapped destination when present. -/
def fixMzHeader (stackSize staticSize : Nat) (startIp : Option Nat) (s : EmitBuf) : EmitBuf :=
  let blockCount := (s.ipDst / 512) % 65536
  let lastBlockSize := (s.ipDst % 512) % 65536
  let blockCount := if lastBlockSize > 0 then (blockCount + 1) % 65536 else blockCount
  let ss := ((s.ipDst + staticSize + 16 - 1) / 16) % 65536
  let sp := if 32 ≤ stackSize ∧ stackSize ≤ 32768 then stackSize % 65536 else 0x2000
  let minExtra := ((staticSize + sp + 16 - 1) / 16 + 1) % 65536
  let maxExtra := minExtra
  let sp := (sp + ss * 16) % 65536
  let sp := (sp + 0x0100) % 65536
  let ssFinal := 0
  let ip := match startIp with
    | some d => d % 65536
    | none => s.header.ip
  { s with header := { s.header with
      blockCount := blockCount, lastBlockSize := lastBlockSize,
      ss := ssFinal, sp := sp,
      minExtraParagraphs := minExtra, maxExtraParagraphs := maxExtra, ip := ip } }

/-- The whole emission pipeline as driven by `Compiler::Compile`
(Compiler.cpp, lines 149-153), with the machine-code/string emission
abstracted to the list of `AllocateBufferForInstruction` sizes it
performs. -/
def emitImage (sizes : List Nat) (stackSize staticSize : Nat) (startIp : Option Nat) : EmitBuf :=
  let s := emitMzHeader initEmitBuf
  let s := sizes.foldl (fun st n => allocateBufferForInstruction n st) s
  fixMzHeader stackSize staticSize startIp s

/-- The byte count the claim computes from the finalized header:
`block_count*512 - (512 - last_block_size if last_block_size>0 else 0)`. -/
def mzImageSizeFormula (h : MzHeader) : Nat :=
  h.blockCount * 512 - (if h.lastBlockSize > 0 then 512 - h.lastBlockSize else 0)

/-- Folding instruction allocations advances `ip_dst` and
`buffer_offset` by the same total and leaves the header alone. -/
theorem allocFold_offsets (sizes : List Nat) (s : EmitBuf) :
    (sizes.foldl (fun st n => allocateBufferForInstruction n st) s).ipDst
        = s.ipDst + sizes.sum ∧
    (sizes.foldl (fun st n => allocateBufferForInstruction n st) s).bufferOffset
        = s.bufferOffset + sizes.sum ∧
    (sizes.foldl (fun st n => allocateBufferForInstruction n st) s).header = s.header := by
  induction sizes generalizing s with
  | nil => simp
  | cons a t ih =>
    simp only [List.foldl_cons, List.sum_cons]
    obtain ⟨h1, h2, h3⟩ := ih (allocateBufferForInstruction a s)
    have ha : (allocateBufferForInstruction a s).ipDst = s.ipDst + a := rfl
    have hb : (allocateBufferForInstruction a s).bufferOffset = s.bufferOffset + a := rfl
    have hc : (allocateBufferForInstruction a s).header = s.header := rfl
    exact ⟨by rw [h1, ha]; omega, by rw [h2, hb]; omega, by rw [h3, hc]⟩

/-- C2 counterexample: an image holding the 32-byte header block and a
single emitted instruction byte has 33 bytes in the buffer, yet the
header formula yields 1 - `FixMzHeader` computes the block fields from
`ip_dst`, which the header allocation never advanced. -/
theorem mz_size_formula_cex :
    mzImageSizeFormula (emitImage [1] 0 0 .none).header = 1 ∧
    (emitImage [1] 0 0 .none).bufferOffset = 33 := by
  exact ⟨rfl, rfl⟩

/-- C2 (amended): the finalized block fields satisfy
`block_count*512 - (512 - last_block_size if last_block_size>0 else 0)
= ip_dst`, the count of instruction/string bytes, which is the emitted
image size minus the 32-byte header block (header padding excluded, not
included). -/
theorem mz_size_formula_matches_ipDst (sizes : List Nat) (stackSize staticSize : Nat)
    (startIp : Option Nat) (hsum : sizes.sum ≤ 512 * 65535) :
    mzImageSizeFormula (emitImage sizes stackSize staticSize startIp).header
        = (emitImage sizes stackSize staticSize startIp).ipDst ∧
    (emitImage sizes stackSize staticSize startIp).bufferOffset
        = (emitImage sizes stackSize staticSize startIp).ipDst + 32 := by
  obtain ⟨h1, h2, _⟩ := allocFold_offsets sizes (emitMzHeader initEmitBuf)
  have hip : (emitMzHeader initEmitBuf).ipDst = 0 := rfl
  have hoff : (emitMzHeader initEmitBuf).bufferOffset = 32 := rfl
  unfold emitImage mzImageSizeFormula fixMzHeader
  simp only [h1, h2, hip, hoff, Nat.zero_add]
  constructor
  · split_ifs <;> omega
  · omega

/-- C2 witness input for the amended theorem: one 1-byte instruction. -/
theorem mz_size_formula_matches_ipDst_witness :
    mzImageSizeFormula (emitImage [1] 0 0 .none).header = (emitImage [1] 0 0 .none).ipDst ∧
    (emitImage [1] 0 0 .none).bufferOffset = (emitImage [1] 0 0 .none).ipDst + 32 :=
  mz_size_formula_matches_ipDst [1] 0 0 .none (by decide)

/-- C5: `FixMzHeader` takes the requested stack size when it lies in
[32, 32768] and 8192 otherwise (so also for the absent-directive value
0), then biases `SP` by `(SS << 4) + 0x0100` for the flat memory model
and zeroes `SS`. -/
theorem fixMzHeader_sp_ss (stackSize staticSize : Nat) (startIp : Option Nat) (s : EmitBuf) :
    (fixMzHeader stackSize staticSize startIp s).header.ss = 0 ∧
    (fixMzHeader stackSize staticSize startIp s).header.sp
      = ((if 32 ≤ stackSize ∧ stackSize ≤ 32768 then stackSize else 8192)
          + 16 * (((s.ipDst + staticSize + 15) / 16) % 65536) + 0x0100) % 65536 := by
  unfold fixMzHeader
  refine ⟨rfl, ?_⟩
  split_ifs with h
  · simp only
    omega
  · simp only
    omega

/-! ## Backpatching (DosExeEmitter.cpp 2070-2144) -/

/-- `enum struct DosBackpatchType` (DosExeEmitter.h). -/
inductive DosBackpatchType
  | Unknown
  | ToRel8
  | ToRel16
  | ToDsAbs16
  | ToStack8
  deriving DecidableEq, Repr

/-- `enum struct DosBackpatchTarget` (DosExeEmitter.h). -/
inductive DosBackpatchTarget
  | Unknown
  | IP
  | Label
  | Function
  | String
  | Local
  | Static
  deriving DecidableEq, Repr

/-- `struct DosBackpatchInstruction` (DosExeEmitter.h). -/
structure DosBackpatchInstruction where
  type : DosBackpatchType
  target : DosBackpatchTarget
  backpatchOffset : Nat
  backpatchIp : Nat
  ipSrc : Int
  value : String
  deriving DecidableEq, Repr

/-- `struct DosLabel` (DosExeEmitter.h): a name and a (possibly
negative, for `Local` slots) destination value. -/
structure DosLabel where
  name : String
  ipDst : Int
  deriving DecidableEq, Repr

/-- Two's-complement truncation to a signed 8-bit value. -/
def toInt8 (i : Int) : Int := (i + 128) % 256 - 128

/-- Two's-complement truncation to a signed 16-bit value. -/
def toInt16 (i : Int) : Int := (i + 32768) % 65536 - 32768

/-- Two's-complement truncation to a signed 32-bit value. -/
def toInt32 (i : Int) : Int := (i + 2147483648) % 4294967296 - 2147483648

/-- One deferred write into the code buffer: the backpatch kind, the
buffer offset, and the (signed) value stored there. -/
structure PatchWrite where
  type : DosBackpatchType
  offset : Nat
  value : Int
  deriving DecidableEq, Repr

/-- The out-of-range error both `Rel8` resolvers throw. -/
def rel8RangeError : CompilerException :=
  ⟨.Compilation, "Compiler cannot generate that high relative address"⟩

/-- The `ThrowOnUnreachableCode` exception (CompilerException.h). -/
def unreachableCodeError : CompilerException :=
  ⟨.Compilation, "Unexpected compiler error"⟩

/-- Record a performed write and keep walking (the loop body's
`*(intN_t*)(buffer + offset) = v; it = backpatch.erase(it)`). -/
def consWrite (w : PatchWrite)
    (r : Except CompilerException (List PatchWrite × List DosBackpatchInstruction)) :
    Except CompilerException (List PatchWrite × List DosBackpatchInstruction) :=
  r.map fun p => (w :: p.1, p.2)

/-- Keep a non-matching entry in the list and walk on (`++it`). -/
def consKeep (e : DosBackpatchInstruction)
    (r : Except CompilerException (List PatchWrite × List DosBackpatchInstruction)) :
    Except CompilerException (List PatchWrite × List DosBackpatchInstruction) :=
  r.map fun p => (p.1, e :: p.2)

/-- `DosExeEmitter::BackpatchAddresses` (DosExeEmitter.cpp, 2070-2101):
walk the backpatch list; every entry with target `IP` whose source IP is
the current one is resolved against `ip_src_to_dst[ip_src]` (`dst`) and
erased; `ToRel8` displacements outside `[INT8_MIN, INT8_MAX]` throw,
`ToRel16` is truncated, any other kind is unreachable.  Returns the
performed writes and the surviving list. -/
def backpatchAddresses (ipSrc : Int) (dst : Nat) :
    List DosBackpatchInstruction →
      Except CompilerException (List PatchWrite × List DosBackpatchInstruction)
  | [] => .ok ([], [])
  | e :: rest =>
    if e.target = .IP ∧ e.ipSrc = ipSrc then
      match e.type with
      | .ToRel8 =>
        let rel8 := toInt32 ((dst : Int) - (e.backpatchIp : Int))
        if rel8 < -128 ∨ rel8 > 127 then
          .error rel8RangeError
        else
          consWrite ⟨.ToRel8, e.backpatchOffset, rel8⟩ (backpatchAddresses ipSrc dst rest)
      | .ToRel16 =>
        let rel16 := toInt16 ((dst : Int) - (e.backpatchIp : Int))
        consWrite ⟨.ToRel16, e.backpatchOffset, rel16⟩ (backpatchAddresses ipSrc dst rest)
      | _ => .error unreachableCodeError
    else
      consKeep e (backpatchAddresses ipSrc dst rest)

/-- `DosExeEmitter::BackpatchLabels` (DosExeEmitter.cpp, 2103-2144):
walk the backpatch list; every entry of the requested target whose value
names the just-defined label is resolved against `label.ip_dst` and
erased; `ToRel8` checks the range, `ToRel16`/`ToDsAbs16`/`ToStack8`
truncate, anything else is unreachable. -/
def backpatchLabels (label : DosLabel) (target : DosBackpatchTarget) :
    List DosBackpatchInstruction →
      Except CompilerException (List PatchWrite × List DosBackpatchInstruction)
  | [] => .ok ([], [])
  | e :: rest =>
    if e.target = target ∧ e.value = label.name then
      match e.type with
      | .ToRel8 =>
        let rel8 := toInt32 (label.ipDst - (e.backpatchIp : Int))
        if rel8 < -128 ∨ rel8 > 127 then
          .error rel8RangeError
        else
          consWrite ⟨.ToRel8, e.backpatchOffset, rel8⟩ (backpatchLabels label target rest)
      | .ToRel16 =>
        let rel16 := toInt16 (label.ipDst - (e.backpatchIp : Int))
        consWrite ⟨.ToRel16, e.backpatchOffset, rel16⟩ (backpatchLabels label target rest)
      | .ToDsAbs16 =>
        let abs16 := toInt16 (toInt16 label.ipDst + 0x0100)
        consWrite ⟨.ToDsAbs16, e.backpatchOffset, abs16⟩ (backpatchLabels label target rest)
      | .ToStack8 =>
        consWrite ⟨.ToStack8, e.backpatchOffset, toInt8 label.ipDst⟩ (backpatchLabels label target rest)
      | .Unknown => .error unreachableCodeError
    else
      consKeep e (backpatchLabels label target rest)

/-- The source of the exception a resolver run ended with, if any. -/
def exceptSource {α : Type} : Except CompilerException α → Option CompilerExceptionSource
  | .error e => some e.source
  | .ok _ => none

theorem consWrite_ok {w r ws keep} :
    consWrite w r = .ok (ws, keep) ↔ ∃ ws', r = .ok (ws', keep) ∧ ws = w :: ws' := by
  cases r with
  | ok p => cases p; simp [consWrite, Except.map]; aesop
  | error ex => simp [consWrite, Except.map]

theorem consKeep_ok {e r ws keep} :
    consKeep e r = .ok (ws, keep) ↔ ∃ keep', r = .ok (ws, keep') ∧ keep = e :: keep' := by
  cases r with
  | ok p => cases p; simp [consKeep, Except.map]; aesop
  | error ex => simp [consKeep, Except.map]

theorem exceptSource_consWrite {w r} : exceptSource (consWrite w r) = exceptSource r := by
  cases r <;> rfl

theorem exceptSource_consKeep {e r} : exceptSource (consKeep e r) = exceptSource r := by
  cases r <;> rfl

/-- Every `ToRel8` write `BackpatchAddresses` performs carries an
in-range displacement. -/
theorem backpatchAddresses_rel8_in_range (ipSrc : Int) (dst : Nat) :
    ∀ (l : List DosBackpatchInstruction) (ws keep : _)
      (_ : backpatchAddresses ipSrc dst l = .ok (ws, keep))
      (pw : PatchWrite) (_ : pw ∈ ws) (_ : pw.type = .ToRel8),
      -128 ≤ pw.value ∧ pw.value ≤ 127 := by
  intro l
  induction l with
  | nil =>
    intro ws keep h pw hpw ht
    simp only [backpatchAddresses] at h
    cases h
    simp at hpw
  | cons e rest ih =>
    intro ws keep h pw hpw ht
    obtain ⟨ty, tg, off, bip, isrc, val⟩ := e
    simp only [backpatchAddresses] at h
    by_cases hm : tg = DosBackpatchTarget.IP ∧ isrc = ipSrc
    · rw [if_pos hm] at h
      cases ty with
      | ToRel8 =>
        simp only at h
        split at h
        · exact absurd h (by simp)
        · rename_i hrange
          obtain ⟨ws', hr, hws⟩ := consWrite_ok.mp h
          subst hws
          rcases List.mem_cons.mp hpw with hpw | hpw
          · subst hpw
            dsimp only
            omega
          · exact ih ws' keep hr pw hpw ht
      | ToRel16 =>
        simp only at h
        obtain ⟨ws', hr, hws⟩ := consWrite_ok.mp h
        subst hws
        rcases List.mem_cons.mp hpw with hpw | hpw
        · subst hpw; cases ht
        · exact ih ws' keep hr pw hpw ht
      | Unknown => exact absurd h (by simp)
      | ToDsAbs16 => exact absurd h (by simp)
      | ToStack8 => exact absurd h (by simp)
    · rw [if_neg hm] at h
      obtain ⟨keep', hr, hk⟩ := consKeep_ok.mp h
      exact ih ws keep' hr pw hpw ht

/-- Every `ToRel8` write `BackpatchLabels` performs carries an in-range
displacement. -/
theorem backpatchLabels_rel8_in_range (label : DosLabel) (target : DosBackpatchTarget) :
    ∀ (l : List DosBackpatchInstruction) (ws keep : _)
      (_ : backpatchLabels label target l = .ok (ws, keep))
      (pw : PatchWrite) (_ : pw ∈ ws) (_ : pw.type = .ToRel8),
      -128 ≤ pw.value ∧ pw.value ≤ 127 := by
  intro l
  induction l with
  | nil =>
    intro ws keep h pw hpw ht
    simp only [backpatchLabels] at h
    cases h
    simp at hpw
  | cons e rest ih =>
    intro ws keep h pw hpw ht
    obtain ⟨ty, tg, off, bip, isrc, val⟩ := e
    simp only [backpatchLabels] at h
    by_cases hm : tg = target ∧ val = label.name
    · rw [if_pos hm] at h
      cases ty with
      | ToRel8 =>
        simp only at h
        split at h
        · exact absurd h (by simp)
        · rename_i hrange
          obtain ⟨ws', hr, hws⟩ := consWrite_ok.mp h
          subst hws
          rcases List.mem_cons.mp hpw with hpw | hpw
          · subst hpw
            dsimp only
            omega
          · exact ih ws' keep hr pw hpw ht
      | ToRel16 =>
        simp only at h
        obtain ⟨ws', hr, hws⟩ := consWrite_ok.mp h
        subst hws
        rcases List.mem_cons.mp hpw with hpw | hpw
        · subst hpw; cases ht
        · exact ih ws' keep hr pw hpw ht
      | ToDsAbs16 =>
        simp only at h
        obtain ⟨ws', hr, hws⟩ := consWrite_ok.mp h
        subst hws
        rcases List.mem_cons.mp hpw with hpw | hpw
        · subst hpw; cases ht
        · exact ih ws' keep hr pw hpw ht
      | ToStack8 =>
        simp only at h
        obtain ⟨ws', hr, hws⟩ := consWrite_ok.mp h
        subst hws
        rcases List.mem_cons.mp hpw with hpw | hpw
        · subst hpw; cases ht
        · exact ih ws' keep hr pw hpw ht
      | Unknown => exact absurd h (by simp)
    · rw [if_neg hm] at h
      obtain ⟨keep', hr, hk⟩ := consKeep_ok.mp h
      exact ih ws keep' hr pw hpw ht

/-- If the list holds a matching `ToRel8` entry whose displacement is
out of range, `BackpatchAddresses` ends in a `Compilation` error. -/
theorem backpatchAddresses_rel8_out_of_range_fails (ipSrc : Int) (dst : Nat) :
    ∀ (l : List DosBackpatchInstruction)
      (e : DosBackpatchInstruction) (_ : e ∈ l)
      (_ : e.target = .IP) (_ : e.ipSrc = ipSrc) (_ : e.type = .ToRel8)
      (_ : toInt32 ((dst : Int) - (e.backpatchIp : Int)) < -128 ∨
           toInt32 ((dst : Int) - (e.backpatchIp : Int)) > 127),
      exceptSource (backpatchAddresses ipSrc dst l) = some .Compilation := by
  intro l
  induction l with
  | nil =>
    intro e he
    simp at he
  | cons a rest ih =>
    intro e he htg hip hty hrange
    rcases List.mem_cons.mp he with he | he
    · subst he
      simp only [backpatchAddresses, if_pos (And.intro htg hip), hty]
      rw [if_pos hrange]
      rfl
    · have htail := ih e he htg hip hty hrange
      obtain ⟨ty, tg, off, bip, isrc, val⟩ := a
      simp only [backpatchAddresses]
      by_cases hm : tg = DosBackpatchTarget.IP ∧ isrc = ipSrc
      · rw [if_pos hm]
        cases ty with
        | ToRel8 =>
          simp only
          split
          · rfl
          · rw [exceptSource_consWrite]; exact htail
        | ToRel16 => rw [exceptSource_consWrite]; exact htail
        | Unknown => rfl
        | ToDsAbs16 => rfl
        | ToStack8 => rfl
      · rw [if_neg hm, exceptSource_consKeep]
        exact htail

/-- If the list holds a matching `ToRel8` entry whose displacement is
out of range, `BackpatchLabels` ends in a `Compilation` error. -/
theorem backpatchLabels_rel8_out_of_range_fails (label : DosLabel) (target : DosBackpatchTarget) :
    ∀ (l : List DosBackpatchInstruction)
      (e : DosBackpatchInstruction) (_ : e ∈ l)
      (_ : e.target = target) (_ : e.value = label.name) (_ : e.type = .ToRel8)
      (_ : toInt32 (label.ipDst - (e.backpatchIp : Int)) < -128 ∨
           toInt32 (label.ipDst - (e.backpatchIp : Int)) > 127),
      exceptSource (backpatchLabels label target l) = some .Compilation := by
  intro l
  induction l with
  | nil =>
    intro e he
    simp at he
  | cons a rest ih =>
    intro e he htg hval hty hrange
    rcases List.mem_cons.mp he with he | he
    · subst he
      simp only [backpatchLabels, if_pos (And.intro htg hval), hty]
      rw [if_pos hrange]
      rfl
    · have htail := ih e he htg hval hty hrange
      obtain ⟨ty, tg, off, bip, isrc, val⟩ := a
      simp only [backpatchLabels]
      by_cases hm : tg = target ∧ val = label.name
      · rw [if_pos hm]
        cases ty with
        | ToRel8 =>
          simp only
          split
          · rfl
          · rw [exceptSource_consWrite]; exact htail
        | ToRel16 => rw [exceptSource_consWrite]; exact htail
        | ToDsAbs16 => rw [exceptSource_consWrite]; exact htail
        | ToStack8 => rw [exceptSource_consWrite]; exact htail
        | Unknown => rfl
      · rw [if_neg hm, exceptSource_consKeep]
        exact htail

/-- C6: whenever a `Rel8` backpatch entry is resolved - by reaching its
target source IP (`BackpatchAddresses`) or by defining its label
(`BackpatchLabels`) - a displacement outside `[INT8_MIN, INT8_MAX]`
makes resolution fail with a `Compilation` error, and every `Rel8`
write either resolver actually performs is in range, so no out-of-range
value is ever truncated into the 8-bit slot. -/
theorem rel8_resolution_checks_range (ipSrc : Int) (dst : Nat)
    (label : DosLabel) (target : DosBackpatchTarget)
    (l : List DosBackpatchInstruction) :
    (∀ ws keep, backpatchAddresses ipSrc dst l = .ok (ws, keep) →
      ∀ pw ∈ ws, pw.type = .ToRel8 → -128 ≤ pw.value ∧ pw.value ≤ 127) ∧
    (∀ ws keep, backpatchLabels label target l = .ok (ws, keep) →
      ∀ pw ∈ ws, pw.type = .ToRel8 → -128 ≤ pw.value ∧ pw.value ≤ 127) ∧
    (∀ e ∈ l, e.target = .IP → e.ipSrc = ipSrc → e.type = .ToRel8 →
      (toInt32 ((dst : Int) - (e.backpatchIp : Int)) < -128 ∨
       toInt32 ((dst : Int) - (e.backpatchIp : Int)) > 127) →
      exceptSource (backpatchAddresses ipSrc dst l) = some .Compilation) ∧
    (∀ e ∈ l, e.target = target → e.value = label.name → e.type = .ToRel8 →
      (toInt32 (label.ipDst - (e.backpatchIp : Int)) < -128 ∨
       toInt32 (label.ipDst - (e.backpatchIp : Int)) > 127) →
      exceptSource (backpatchLabels label target l) = some .Compilation) :=
  ⟨fun ws keep h pw hpw ht => backpatchAddresses_rel8_in_range ipSrc dst l ws keep h pw hpw ht,
   fun ws keep h pw hpw ht => backpatchLabels_rel8_in_range label target l ws keep h pw hpw ht,
   fun e he htg hip hty hr => backpatchAddresses_rel8_out_of_range_fails ipSrc dst l e he htg hip hty hr,
   fun e he htg hval hty hr => backpatchLabels_rel8_out_of_range_fails label target l e he htg hval hty hr⟩

/-- C6 witness: a concrete pending list with one in-range `Rel8` entry
resolved by address, and one out-of-range `Rel8` entry that makes label
resolution fail with a `Compilation` error. -/
theorem rel8_resolution_checks_range_witness :
    (-128 ≤ (5 : Int) ∧ (5 : Int) ≤ 127) ∧
    exceptSource (backpatchLabels ⟨"lbl", 400⟩ .Label
        [⟨.ToRel8, .Label, 7, 100, 0, "lbl"⟩]) = some .Compilation := by
  have h := rel8_resolution_checks_range 3 105 ⟨"lbl", 400⟩ .Label
      [⟨.ToRel8, .Label, 7, 100, 0, "lbl"⟩]
  refine ⟨?_, ?_⟩
  · have h2 := rel8_resolution_checks_range 3 105 ⟨"lbl", 400⟩ .Label
        [⟨.ToRel8, .IP, 7, 100, 3, "x"⟩]
    exact h2.1 [⟨.ToRel8, 7, 5⟩] [] (by rfl) ⟨.ToRel8, 7, 5⟩ (by simp) (by rfl)
  · exact h.2.2.2 ⟨.ToRel8, .Label, 7, 100, 0, "lbl"⟩ (by simp) (by rfl) (by rfl) (by rfl)
      (by decide)

/-! ## Function definition (`Compiler::AddFunction` / `AddFunctionPrototype`,
Compiler.cpp 428-623) -/

/-- `#define EntryPointName "Main"` (Compiler.h, line 24). -/
def entryPointName : String := "Main"

/-- A stored symbol-table entry (`struct SymbolTableEntry`), with
`parent` as an optional string (`nullptr` for statics and functions). -/
structure SymEntry where
  name : String
  type : SymbolType
  size : Int
  returnType : SymbolType
  expType : ExpressionType
  ip : Int
  parameter : Int
  parent : Option String
  isTemp : Bool
  deriving DecidableEq, Repr

/-- `Compiler::AddSymbol` (Compiler.cpp, lines 921-952): reject empty
names with a `Declaration` error, else append to the table's tail. -/
def addSymbol (name : String) (type : SymbolType) (size : Int) (returnType : SymbolType)
    (expType : ExpressionType) (ip : Int) (parameter : Int) (parent : Option String)
    (isTemp : Bool) (table : List SymEntry) : Except CompilerException (List SymEntry) :=
  if name = "" then
    .error ⟨.Declaration, "Symbol name must not be empty"⟩
  else
    .ok (table ++ [⟨name, type, size, returnType, expType, ip, parameter, parent, isTemp⟩])

/-- The front-end state `AddFunction`/`AddFunctionPrototype` touch:
symbol table, declaration queue, `parameter_count`, `function_ip` and
`current_ip` (Compiler.h, lines 381-386). -/
structure FrontEndState where
  symbolTable : List SymEntry
  declarationQueue : List DeclEntry
  parameterCount : Nat
  functionIp : Int
  currentIp : Int
  deriving DecidableEq, Repr

/-- The duplicate-definition scan at the top of `AddFunction`
(Compiler.cpp, lines 430-446): a `Function`, `EntryPoint` or
`SharedFunction` entry with the same name. -/
def hasFunctionNamed (table : List SymEntry) (name : String) : Bool :=
  table.any fun s =>
    (s.type.base == BaseSymbolType.Function || s.type.base == BaseSymbolType.EntryPoint ||
     s.type.base == BaseSymbolType.SharedFunction) && s.name == name

/-- The entry-point branch's queue drain (Compiler.cpp, lines 462-469):
every queued declaration is copied into the symbol table with parameter
index 0 and parent `EntryPointName`. -/
def drainQueueToParent (parent : String) : List DeclEntry → List SymEntry →
    Except CompilerException (List SymEntry)
  | [], table => .ok table
  | d :: rest, table =>
    match addSymbol d.name d.type d.size d.returnType d.expType d.ip 0 (some parent)
        d.isTemp table with
    | .ok t => drainQueueToParent parent rest t
    | .error e => .error e

/-- `Compiler::AddFunction` specialized to `name == EntryPointName`
(Compiler.cpp, lines 428-476): the duplicate scan, the
`function_ip`/`NextIp` bookkeeping, the zero-parameter and
`uint8`-return checks, the queue drain, the `EntryPoint` insertion and
`ReleaseDeclarationQueue` (which also zeroes `parameter_count`).  The
non-entry-point continuation (lines 478-572) is never reached on this
name and is not part of this embedding. -/
def addFunctionEntryPoint (returnType : SymbolType) (st : FrontEndState) :
    Except CompilerException FrontEndState :=
  if hasFunctionNamed st.symbolTable entryPointName then
    .error ⟨.Declaration, "Function \"" ++ entryPointName ++ "\" is already defined"⟩
  else
    let ip := st.functionIp
    let functionIp := st.currentIp + 1
    if st.parameterCount ≠ 0 then
      .error ⟨.Declaration, "Entry point must have zero parameters"⟩
    else if returnType.base ≠ .Uint8 ∨ returnType.pointer ≠ 0 then
      .error ⟨.Declaration, "Entry point must return \"uint8\" value"⟩
    else
      match drainQueueToParent entryPointName st.declarationQueue st.symbolTable with
      | .error e => .error e
      | .ok table =>
        match addSymbol entryPointName ⟨.EntryPoint, 0⟩ 0 returnType .None ip 0 .none
            false table with
        | .error e => .error e
        | .ok table =>
          .ok { st with
                symbolTable := table
                declarationQueue := []
                parameterCount := 0
                functionIp := functionIp }

/-- The duplicate scan of `AddFunctionPrototype` (Compiler.cpp, lines
586-603), which also counts `FunctionPrototype` entries. -/
def hasFunctionRoleNamed (table : List SymEntry) (name : String) : Bool :=
  table.any fun s =>
    (s.type.base == BaseSymbolType.FunctionPrototype ||
     s.type.base == BaseSymbolType.Function || s.type.base == BaseSymbolType.EntryPoint ||
     s.type.base == BaseSymbolType.SharedFunction) && s.name == name

/-- The prototype's parameter collection (Compiler.cpp, lines 608-620):
queued declarations become parameters 1..n of `name`. -/
def drainQueueAsParameters (parent : String) : Nat → List DeclEntry → List SymEntry →
    Except CompilerException (List SymEntry)
  | _, [], table => .ok table
  | parameterCurrent, d :: rest, table =>
    match addSymbol d.name d.type d.size d.returnType d.expType d.ip
        (parameterCurrent + 1 : Nat) (some parent) d.isTemp table with
    | .ok t => drainQueueAsParameters parent (parameterCurrent + 1) rest t
    | .error e => .error e

/-- `Compiler::AddFunctionPrototype` (Compiler.cpp, lines 576-623):
prototypes for the entry point are forbidden outright; then the
parameter-count sanity check, the duplicate scan, the
`FunctionPrototype` insertion and the parameter collection. -/
def addFunctionPrototype (name : String) (returnType : SymbolType) (st : FrontEndState) :
    Except CompilerException FrontEndState :=
  if name = entryPointName then
    .error ⟨.Declaration, "Prototype for entry point is not allowed"⟩
  else if st.declarationQueue.isEmpty ∧ st.parameterCount ≠ 0 then
    .error ⟨.Declaration, "Parameter count does not match"⟩
  else if hasFunctionRoleNamed st.symbolTable name then
    .error ⟨.Declaration, "Duplicate function definition for \"" ++ name ++ "\""⟩
  else
    match addSymbol name ⟨.FunctionPrototype, 0⟩ 0 returnType .None 0
        (st.parameterCount : Nat) .none false st.symbolTable with
    | .error e => .error e
    | .ok table =>
      match drainQueueAsParameters name 0 st.declarationQueue table with
      | .error e => .error e
      | .ok table =>
        .ok { st with symbolTable := table, declarationQueue := [], parameterCount := 0 }

/-- Draining a queue of nonempty-named declarations never fails, and the
resulting table extends the input table. -/
theorem drainQueueToParent_ok (parent : String) :
    ∀ (q : List DeclEntry) (table : List SymEntry),
      (∀ d ∈ q, d.name ≠ "") →
      ∃ t', drainQueueToParent parent q table = .ok t' := by
  intro q
  induction q with
  | nil => intro table _; exact ⟨table, rfl⟩
  | cons d rest ih =>
    intro table h
    have hd : d.name ≠ "" := h d (by simp)
    simp only [drainQueueToParent, addSymbol, if_neg hd]
    exact ih _ fun x hx => h x (by simp [hx])

/-- C7: with no function-role entry named `Main` in the table yet and
well-formed (nonempty) queued names, defining `Main` succeeds - and the
appended entry is the `EntryPoint` - exactly when the queued parameter
count is zero and the return type is `uint8` (depth 0); any deviation
is a `Declaration` error, and a prototype for `Main` is always a
`Declaration` error. -/
theorem addFunction_main_entry_point (rt : SymbolType) (st : FrontEndState)
    (hdup : hasFunctionNamed st.symbolTable entryPointName = false)
    (hnames : ∀ d ∈ st.declarationQueue, d.name ≠ "") :
    (st.parameterCount = 0 ∧ rt = ⟨.Uint8, 0⟩ →
      ∃ st', addFunctionEntryPoint rt st = .ok st' ∧
        st'.symbolTable.getLast? =
          some ⟨entryPointName, ⟨.EntryPoint, 0⟩, 0, rt, .None, st.functionIp, 0, .none, false⟩) ∧
    (¬(st.parameterCount = 0 ∧ rt = ⟨.Uint8, 0⟩) →
      exceptSource (addFunctionEntryPoint rt st) = some .Declaration) ∧
    exceptSource (addFunctionPrototype entryPointName rt st) = some .Declaration := by
  refine ⟨?_, ?_, ?_⟩
  · rintro ⟨hpc, hrt⟩
    subst hrt
    unfold addFunctionEntryPoint
    rw [hdup]
    simp only [Bool.false_eq_true, if_false]
    rw [if_neg (by simp [hpc])]
    rw [if_neg (by simp)]
    obtain ⟨t', hdrain⟩ :=
      drainQueueToParent_ok entryPointName st.declarationQueue st.symbolTable hnames
    rw [hdrain]
    simp only [addSymbol, entryPointName, if_neg (by decide : ¬("Main" = ""))]
    refine ⟨_, rfl, ?_⟩
    simp [List.getLast?_concat, entryPointName]
  · intro hdev
    unfold addFunctionEntryPoint
    rw [hdup]
    simp only [Bool.false_eq_true, if_false]
    by_cases hpc : st.parameterCount = 0
    · have hrt : rt ≠ ⟨.Uint8, 0⟩ := fun h => hdev ⟨hpc, h⟩
      rw [if_neg (by simp [hpc])]
      rw [if_pos ?_]
      · rfl
      · cases rt with
        | mk b p =>
          by_cases hb : b = BaseSymbolType.Uint8
          · subst hb
            right
            intro hp
            apply hrt
            have hp' : p = 0 := hp
            rw [hp']
          · exact Or.inl hb
    · rw [if_pos hpc]
      rfl
  · unfold addFunctionPrototype
    rw [if_pos rfl]
    rfl

/-- C7 witness: a fresh front end; defining `Main` with return type
`uint16` is rejected with a `Declaration` error. -/
theorem addFunction_main_entry_point_witness :
    exceptSource (addFunctionEntryPoint ⟨.Uint16, 0⟩ ⟨[], [], 0, 0, -1⟩) = some .Declaration :=
  (addFunction_main_entry_point ⟨.Uint16, 0⟩ ⟨[], [], 0, 0, -1⟩ rfl (by simp)).2.1 (by decide)

/-! ## If lowering (`DosExeEmitter::EmitIf` and helpers,
DosExeEmitter.cpp 3470-3560, 4296-4325) -/

/-- `enum struct CompareType` (InstructionEntry.h). -/
inductive CompareType
  | None
  | LogOr
  | LogAnd
  | Equal
  | NotEqual
  | Greater
  | Less
  | GreaterOrEqual
  | LessOrEqual
  deriving DecidableEq, Repr

/-- `DosExeEmitter::GetSwappedCompareType` (DosExeEmitter.cpp,
4296-4308): rewrite the compare direction for swapped operands;
anything outside the six relational kinds hits
`ThrowOnUnreachableCode`. -/
def getSwappedCompareType : CompareType → Except CompilerException CompareType
  | .Equal => .ok .Equal
  | .NotEqual => .ok .NotEqual
  | .Greater => .ok .Less
  | .Less => .ok .Greater
  | .GreaterOrEqual => .ok .LessOrEqual
  | .LessOrEqual => .ok .GreaterOrEqual
  | _ => .error unreachableCodeError

/-- `DosExeEmitter::IfConstexpr` (DosExeEmitter.cpp, 4310-4325):
compile-time evaluation of an `If` on two 32-bit operand values
(`int32_t`, so `||`/`&&` test non-zero). -/
def ifConstexpr : CompareType → Int → Int → Except CompilerException Bool
  | .LogOr, op1, op2 => .ok (decide (op1 ≠ 0) || decide (op2 ≠ 0))
  | .LogAnd, op1, op2 => .ok (decide (op1 ≠ 0) && decide (op2 ≠ 0))
  | .Equal, op1, op2 => .ok (decide (op1 = op2))
  | .NotEqual, op1, op2 => .ok (decide (op1 ≠ op2))
  | .Greater, op1, op2 => .ok (decide (op1 > op2))
  | .Less, op1, op2 => .ok (decide (op1 < op2))
  | .GreaterOrEqual, op1, op2 => .ok (decide (op1 ≥ op2))
  | .LessOrEqual, op1, op2 => .ok (decide (op1 ≤ op2))
  | .None, _, _ => .error unreachableCodeError

/-- The six relational compare kinds (`Equal` .. `LessOrEqual`). -/
def CompareType.isRelational : CompareType → Bool
  | .Equal | .NotEqual | .Greater | .Less | .GreaterOrEqual | .LessOrEqual => true
  | _ => false

/-- C8: the operand-swap rewrite maps `Equal`/`NotEqual` to themselves
and exchanges `Greater`/`Less` and `GreaterOrEqual`/`LessOrEqual`, is an
involution on the six relational kinds, and preserves the compile-time
comparison semantics: `IfConstexpr(t, a, b) = IfConstexpr(swap t, b, a)`
for every relational `t` and all 32-bit operands. -/
theorem getSwappedCompareType_swap_correct :
    getSwappedCompareType .Equal = .ok .Equal ∧
    getSwappedCompareType .NotEqual = .ok .NotEqual ∧
    getSwappedCompareType .Greater = .ok .Less ∧
    getSwappedCompareType .Less = .ok .Greater ∧
    getSwappedCompareType .GreaterOrEqual = .ok .LessOrEqual ∧
    getSwappedCompareType .LessOrEqual = .ok .GreaterOrEqual ∧
    (∀ t, t.isRelational = true →
      (getSwappedCompareType t).bind getSwappedCompareType = .ok t) ∧
    (∀ t t' (a b : Int), t.isRelational = true → getSwappedCompareType t = .ok t' →
      ifConstexpr t a b = ifConstexpr t' b a) := by
  refine ⟨rfl, rfl, rfl, rfl, rfl, rfl, ?_, ?_⟩
  · intro t ht
    cases t <;> first | rfl | simp [CompareType.isRelational] at ht
  · intro t t' a b ht hsw
    cases t with
    | Equal =>
      injection hsw with h
      subst h
      simp only [ifConstexpr, eq_comm]
    | NotEqual =>
      injection hsw with h
      subst h
      simp only [ifConstexpr, ne_comm]
    | Greater =>
      injection hsw with h
      subst h
      rfl
    | Less =>
      injection hsw with h
      subst h
      rfl
    | GreaterOrEqual =>
      injection hsw with h
      subst h
      rfl
    | LessOrEqual =>
      injection hsw with h
      subst h
      rfl
    | None => simp [CompareType.isRelational] at ht
    | LogOr => simp [CompareType.isRelational] at ht
    | LogAnd => simp [CompareType.isRelational] at ht

/-- C8 witness: `Greater` swapped twice is `Greater` again, and
`IfConstexpr(Greater, 3, 5) = IfConstexpr(Less, 5, 3)`. -/
theorem getSwappedCompareType_swap_correct_witness :
    CompareType.isRelational .Greater = true ∧
    (getSwappedCompareType .Greater).bind getSwappedCompareType = .ok .Greater ∧
    ifConstexpr .Greater 3 5 = ifConstexpr .Less 5 3 := by
  have h := getSwappedCompareType_swap_correct
  exact ⟨rfl, h.2.2.2.2.2.2.1 .Greater rfl, h.2.2.2.2.2.2.2 .Greater .Less 3 5 rfl rfl⟩

/-- The front end of `DosExeEmitter::EmitIf` (DosExeEmitter.cpp,
3470-3530) that chooses which compare kind the emission dispatches on:
a jump to itself is unreachable code, a jump to the very next
instruction emits nothing (`.ok none`), and a constant first operand is
swapped to the right through `GetSwappedCompareType`. -/
def emitIfSelectCompare (ifIp ipSrc : Int) (op1ExpType : ExpressionType)
    (cmpType : CompareType) : Except CompilerException (Option CompareType) :=
  if ifIp = ipSrc then
    .error unreachableCodeError
  else if ifIp = ipSrc + 1 then
    .ok .none
  else if op1ExpType = .Constant then
    match getSwappedCompareType cmpType with
    | .ok t' => .ok (.some t')
    | .error e => .error e
  else
    .ok (.some cmpType)

/-- C10: an `If` whose first operand is a constant and whose compare
kind is `LogOr` or `LogAnd` makes `EmitIf` call `GetSwappedCompareType`
on a non-relational kind, so (unless the branch is elided as a jump to
the next instruction) compilation aborts with the internal `Compilation`
exception "Unexpected compiler error" instead of emitting the boolean
test. -/
theorem emitIf_constant_logical_fails (ifIp ipSrc : Int) (t : CompareType)
    (h1 : ifIp ≠ ipSrc + 1) (h2 : t = .LogOr ∨ t = .LogAnd) :
    emitIfSelectCompare ifIp ipSrc .Constant t = .error unreachableCodeError := by
  unfold emitIfSelectCompare
  rcases h2 with h | h <;> subst h <;> split_ifs with ha hb <;>
    simp_all [getSwappedCompareType]

/-- C10 witness: a constant-first `LogOr` test three instructions ahead
aborts with the internal error. -/
theorem emitIf_constant_logical_fails_witness :
    emitIfSelectCompare 5 0 .Constant .LogOr = .error unreachableCodeError :=
  emitIf_constant_logical_fails 5 0 .LogOr (by decide) (Or.inl rfl)

/-! ## Dead-function elimination during emission
(`DosExeEmitter::ProcessSymbolLinkage`, DosExeEmitter.cpp 2188-2266) -/

/-- `enum struct InstructionType` (InstructionEntry.h). -/
inductive InstructionType
  | Unknown
  | Nop
  | Assign
  | Goto
  | GotoLabel
  | If
  | Push
  | Call
  | Return
  deriving DecidableEq, Repr

/-- The slice of a `SymbolTableEntry` that `ProcessSymbolLinkage`
inspects: name, role, linked source IP and post-reachability reference
count. -/
structure LinkSymbol where
  name : String
  base : BaseSymbolType
  ip : Int
  refCount : Nat
  deriving DecidableEq, Repr

/-- The emitter state the linkage pass threads: the current source and
destination instruction pointers, the remaining instruction stream
(`current_instruction` onward) and whether a function is open
(`parent != nullptr`). -/
structure EmitLoopState where
  ipSrc : Int
  ipDst : Nat
  instrs : List InstructionType
  parent : Bool
  deriving DecidableEq, Repr

/-- The byte counts of the emission subroutines `ProcessSymbolLinkage`
invokes, left abstract: the theorems below hold whatever these
routines emit. -/
structure EmitCosts where
  epilogue : Nat
  entryPrologue : Nat
  funcPrologue : Nat
  labelUnload : Nat

/-- `DosExeEmitter::EmitFunctionEpilogue` (DosExeEmitter.cpp,
2339-2398) at the state level: a no-op without an open parent,
otherwise it emits the parent's closing bytes and clears `parent`. -/
def emitFunctionEpilogue (c : EmitCosts) (s : EmitLoopState) : EmitLoopState :=
  if s.parent then { s with ipDst := s.ipDst + c.epilogue, parent := false } else s

/-- The skip loop's stopping test (DosExeEmitter.cpp, 2222-2230): some
symbol links a `Function` or `EntryPoint` to this source IP. -/
def isFunctionBoundary (symtab : List LinkSymbol) (ip : Int) : Bool :=
  symtab.any fun s =>
    s.ip == ip && (s.base == BaseSymbolType.Function || s.base == BaseSymbolType.EntryPoint)

/-- The skip loop of the unreferenced-function branch (DosExeEmitter.cpp,
2218-2236): advance `current_instruction`/`ip_src` until the beginning
of the next function (or the end of the stream), touching nothing else. -/
def skipToNextFunction (symtab : List LinkSymbol) :
    List InstructionType → Int → List InstructionType × Int
  | [], ipSrc => ([], ipSrc)
  | i :: rest, ipSrc =>
    if isFunctionBoundary symtab ipSrc then (i :: rest, ipSrc)
    else skipToNextFunction symtab rest (ipSrc + 1)

/-- One `Retry` round of `DosExeEmitter::ProcessSymbolLinkage`
(DosExeEmitter.cpp, 2188-2266): scan the symbol table in order; a
symbol linked to the current source IP triggers its action - entry
point: previous function's epilogue then the entry prologue; function
with `ref_count > 0`: epilogue then prologue; function with
`ref_count == 0`: epilogue, then drop the function's whole source-IP
range via the skip loop and restart the scan (`retry`); label: spill
registers.  `retry` is the `goto Retry` continuation. -/
def pslScan (c : EmitCosts) (fullTab : List LinkSymbol)
    (retry : EmitLoopState → EmitLoopState) :
    List LinkSymbol → EmitLoopState → EmitLoopState
  | [], s => s
  | sym :: rest, s =>
    if sym.ip = s.ipSrc then
      if sym.base = BaseSymbolType.EntryPoint then
        let s1 := emitFunctionEpilogue c s
        pslScan c fullTab retry rest
          { s1 with ipDst := s1.ipDst + c.entryPrologue, parent := true }
      else if sym.base = BaseSymbolType.Function then
        let s1 := emitFunctionEpilogue c s
        if sym.refCount = 0 then
          let p := skipToNextFunction fullTab s1.instrs.tail (s1.ipSrc + 1)
          retry { s1 with instrs := p.1, ipSrc := p.2 }
        else
          pslScan c fullTab retry rest
            { s1 with ipDst := s1.ipDst + c.funcPrologue, parent := true }
      else if sym.base = BaseSymbolType.Label then
        pslScan c fullTab retry rest { s with ipDst := s.ipDst + c.labelUnload }
      else
        pslScan c fullTab retry rest s
    else
      pslScan c fullTab retry rest s

/-- `ProcessSymbolLinkage` with its `Retry` loop, fuelled by the number
of restarts (each restart consumes at least one instruction, so any
fuel of at least the stream length is exact). -/
def processSymbolLinkage (c : EmitCosts) (fullTab : List LinkSymbol) :
    Nat → EmitLoopState → EmitLoopState
  | 0, s => s
  | fuel + 1, s => pslScan c fullTab (processSymbolLinkage c fullTab fuel) fullTab s

/-- No source IP strictly before the skip loop's stopping point is a
function boundary: the loop stops at the first next function. -/
theorem skipToNextFunction_first_boundary (symtab : List LinkSymbol) :
    ∀ (l : List InstructionType) (ip j : Int), ip ≤ j →
      j < (skipToNextFunction symtab l ip).2 → isFunctionBoundary symtab j = false := by
  intro l
  induction l with
  | nil =>
    intro ip j h1 h2
    simp only [skipToNextFunction] at h2
    exact absurd h2 (by omega)
  | cons i rest ih =>
    intro ip j h1 h2
    by_cases hb : isFunctionBoundary symtab ip = true
    · simp only [skipToNextFunction, hb, if_true] at h2
      exact absurd h2 (by omega)
    · simp only [skipToNextFunction, hb, if_false] at h2
      by_cases hj : j = ip
      · subst hj
        exact Bool.eq_false_iff.mpr hb
      · exact ih (ip + 1) j (by omega) h2

/-- The skip loop stops only at a function boundary or at the end of
the instruction stream. -/
theorem skipToNextFunction_stops_at_boundary (symtab : List LinkSymbol) :
    ∀ (l : List InstructionType) (ip : Int),
      (skipToNextFunction symtab l ip).1 = [] ∨
      isFunctionBoundary symtab (skipToNextFunction symtab l ip).2 = true := by
  intro l
  induction l with
  | nil => intro ip; exact Or.inl rfl
  | cons i rest ih =>
    intro ip
    by_cases hb : isFunctionBoundary symtab ip = true
    · simp only [skipToNextFunction]
      rw [if_pos hb]
      exact Or.inr hb
    · simp only [skipToNextFunction, hb, if_false]
      exact ih (ip + 1)

/-- C9: when the linkage scan reaches a `Function` symbol with
`ref_count = 0` linked to the current source IP (no earlier symbol in
scan order acting on this IP), the whole handling of that function is:
the pending epilogue of the *previous* function, then a pure skip of
the dead function's source-IP range - the state handed to the `Retry`
continuation carries the epilogue-only `ip_dst`, the source IP of the
first next function boundary (before which no boundary exists), and
the instruction stream resumed there, so not one byte is emitted for
any instruction in the dead function's range. -/
theorem unreferenced_function_not_emitted (c : EmitCosts)
    (fullTab pre post : List LinkSymbol) (f : LinkSymbol)
    (retry : EmitLoopState → EmitLoopState) (s : EmitLoopState)
    (hf : f.base = .Function) (href : f.refCount = 0) (hip : f.ip = s.ipSrc)
    (hpre : ∀ g ∈ pre, g.ip = s.ipSrc →
        g.base ≠ .EntryPoint ∧ g.base ≠ .Function ∧ g.base ≠ .Label) :
    (pslScan c fullTab retry (pre ++ f :: post) s
      = retry { emitFunctionEpilogue c s with
          instrs := (skipToNextFunction fullTab s.instrs.tail (s.ipSrc + 1)).1,
          ipSrc := (skipToNextFunction fullTab s.instrs.tail (s.ipSrc + 1)).2 }) ∧
    (emitFunctionEpilogue c s).ipDst = s.ipDst + (if s.parent then c.epilogue else 0) ∧
    (∀ j, s.ipSrc + 1 ≤ j → j < (skipToNextFunction fullTab s.instrs.tail (s.ipSrc + 1)).2 →
      isFunctionBoundary fullTab j = false) ∧
    ((skipToNextFunction fullTab s.instrs.tail (s.ipSrc + 1)).1 = [] ∨
      isFunctionBoundary fullTab (skipToNextFunction fullTab s.instrs.tail (s.ipSrc + 1)).2
        = true) := by
  refine ⟨?_, ?_, ?_, ?_⟩
  · induction pre with
    | nil =>
      simp only [List.nil_append, pslScan]
      rw [if_pos hip, if_neg (by rw [hf]; decide), if_pos hf, if_pos href]
      have h1 : (emitFunctionEpilogue c s).instrs = s.instrs := by
        unfold emitFunctionEpilogue
        split <;> rfl
      have h2 : (emitFunctionEpilogue c s).ipSrc = s.ipSrc := by
        unfold emitFunctionEpilogue
        split <;> rfl
      rw [h1, h2]
    | cons g pre' ih =>
      simp only [List.cons_append, pslScan]
      by_cases hgip : g.ip = s.ipSrc
      · obtain ⟨h1, h2, h3⟩ := hpre g (by simp) hgip
        rw [if_pos hgip, if_neg h1, if_neg h2, if_neg h3]
        exact ih fun x hx => hpre x (by simp [hx])
      · rw [if_neg hgip]
        exact ih fun x hx => hpre x (by simp [hx])
  · unfold emitFunctionEpilogue
    split <;> simp_all
  · intro j hj1 hj2
    exact skipToNextFunction_first_boundary fullTab s.instrs.tail (s.ipSrc + 1) j hj1 hj2
  · exact skipToNextFunction_stops_at_boundary fullTab s.instrs.tail (s.ipSrc + 1)

/-- C9 witness: a two-symbol table in which `dead` (ref_count 0) covers
source IPs 1-2 and `Main` starts at IP 3: the scan hands the `Retry`
continuation the state at IP 3 with `ip_dst` untouched (no open parent,
so not even an epilogue byte). -/
theorem unreferenced_function_not_emitted_witness :
    pslScan ⟨7, 11, 13, 17⟩
        [⟨"dead", .Function, 1, 0⟩, ⟨"Main", .EntryPoint, 3, 1⟩]
        id
        [⟨"dead", .Function, 1, 0⟩, ⟨"Main", .EntryPoint, 3, 1⟩]
        ⟨1, 0, [.Nop, .Nop, .Return], false⟩
      = { ipSrc := 3, ipDst := 0, instrs := [.Return], parent := false } := by
  have h := unreferenced_function_not_emitted ⟨7, 11, 13, 17⟩
      [⟨"dead", .Function, 1, 0⟩, ⟨"Main", .EntryPoint, 3, 1⟩]
      [] [⟨"Main", .EntryPoint, 3, 1⟩] ⟨"dead", .Function, 1, 0⟩
      id ⟨1, 0, [.Nop, .Nop, .Return], false⟩
      rfl rfl rfl (by simp)
  exact h.1.trans (by rfl)

end CxComp
